import Mathlib

/-!
Verification of the lighthouse-privacy-sidecar core against its design claims.

The development shallowly embeds the two central components of the repository:

* the RLN rate limiter and the attestation relay path of
  crates/friend-relay/src/lib.rs (RateLimiter, check_and_update, get_stats,
  relay_attestation), and
* the subnet juggler of crates/subnet-juggler/src/lib.rs (SubnetState,
  reshuffle_extra_subnets, initialize, handle_epoch_boundary, and the
  AddSubnets / RemoveSubnets arms of handle_command).

Rust HashMap(u64 -> Vec<B256>) becomes an association list with nat keys and
nat nullifiers; Rust HashSet(SubnetId) becomes Finset (Fin 64); fallible
provider calls become Except String Unit valued functions; the i/o
nondeterminism of the source (random shuffles, HashSet iteration order,
provider responses, clock reads) is made explicit as parameters of the
embedded operations.
-/

/-- Decidable equality for Except values, needed to evaluate concrete runs. -/
def exceptDecEq {ε α : Type} [DecidableEq ε] [DecidableEq α] : DecidableEq (Except ε α) := fun a b =>
  match a, b with
  | Except.ok x, Except.ok y =>
    match decEq x y with
    | isTrue h => isTrue (by rw [h])
    | isFalse h => isFalse (fun hh => h (Except.ok.inj hh))
  | Except.ok _, Except.error _ => isFalse (fun hh => Except.noConfusion hh)
  | Except.error _, Except.ok _ => isFalse (fun hh => Except.noConfusion hh)
  | Except.error e, Except.error f =>
    match decEq e f with
    | isTrue h => isTrue (by rw [h])
    | isFalse h => isFalse (fun hh => h (Except.error.inj hh))

instance {ε α : Type} [DecidableEq ε] [DecidableEq α] : DecidableEq (Except ε α) := exceptDecEq

/-! ## Rate limiter (crates/friend-relay/src/lib.rs, lines 335-386)

Nullifiers (B256 values in the source) are modelled as Nat.  The field
nullifiers_seen, a HashMap from epoch to the vector of nullifiers seen in
that epoch, is modelled as an association list; the HashMap operations used
by the source (retain, entry/or_insert, contains, push) are given their
association-list counterparts below.  Only lookups are observable, so the
list representation is faithful.
-/

/-- Association list from epoch to the nullifiers recorded for it, the
embedding of the nullifiers_seen HashMap. -/
abbrev NullMap := List (Nat × List Nat)

/-- Lookup of an epoch bucket, the embedding of HashMap::get. -/
def lookupBucket : NullMap → Nat → Option (List Nat)
  | [], _ => none
  | (k, v) :: rest, e => if k = e then some v else lookupBucket rest e

/-- Embedding of nullifiers_seen.retain keeping epochs at least cutoff
(the source keeps e when e is at least epoch.saturating_sub(3)). -/
def retainBuckets (m : NullMap) (cutoff : Nat) : NullMap :=
  m.filter (fun p => decide (cutoff ≤ p.1))

/-- Embedding of nullifiers_seen.entry(epoch).or_insert_with(Vec::new):
when the epoch has no bucket yet, an empty bucket is created for it. -/
def insertEmptyIfAbsent (m : NullMap) (e : Nat) : NullMap :=
  match lookupBucket m e with
  | some _ => m
  | none => m ++ [(e, [])]

/-- Embedding of epoch_nullifiers.push(nullifier) on the epoch's bucket. -/
def pushNullifier : NullMap → Nat → Nat → NullMap
  | [], _, _ => []
  | (k, v) :: rest, e, n => if k = e then (k, v ++ [n]) :: rest else (k, v) :: pushNullifier rest e n

/-- Embedding of the RateLimiter struct (friend-relay lib.rs lines 336-341). -/
structure RateLimiter where
  rate_limit_per_epoch : Nat
  current_epoch : Nat
  message_count : Nat
  nullifiers_seen : NullMap
deriving DecidableEq

/-- Embedding of RateLimiter::new (lines 344-351). -/
def RateLimiter.new (limit : Nat) : RateLimiter := ⟨limit, 0, 0, []⟩

/-- First phase of check_and_update (lines 354-360): when the offered epoch is
strictly greater than current_epoch, advance the epoch, zero the counter and
drop buckets older than epoch - 3. -/
def epochRollover (st : RateLimiter) (epoch : Nat) : RateLimiter :=
  if st.current_epoch < epoch then
    { st with
      current_epoch := epoch
      message_count := 0
      nullifiers_seen := retainBuckets st.nullifiers_seen (epoch - 3) }
  else st

/-- Second phase of check_and_update (lines 362-380): create the epoch bucket
if absent, reject nullifier reuse, reject when the counter has reached the
limit, otherwise record the nullifier and bump the counter.  The mutated
limiter is returned alongside the Result, mirroring the &mut self receiver. -/
def checkCore (st1 : RateLimiter) (epoch nullifier : Nat) : Except String Unit × RateLimiter :=
  let m1 := insertEmptyIfAbsent st1.nullifiers_seen epoch
  let bucket := (lookupBucket m1 epoch).getD []
  if nullifier ∈ bucket then
    (Except.error ("Nullifier already used in epoch " ++ toString epoch),
     { st1 with nullifiers_seen := m1 })
  else if st1.rate_limit_per_epoch ≤ st1.message_count then
    (Except.error ("Rate limit exceeded: " ++ toString st1.message_count ++ "/" ++
       toString st1.rate_limit_per_epoch ++ " messages in epoch " ++ toString epoch),
     { st1 with nullifiers_seen := m1 })
  else
    (Except.ok (),
     { st1 with
       message_count := st1.message_count + 1
       nullifiers_seen := pushNullifier m1 epoch nullifier })

/-- Embedding of RateLimiter::check_and_update (lines 353-381). -/
def check_and_update (st : RateLimiter) (epoch nullifier : Nat) : Except String Unit × RateLimiter :=
  checkCore (epochRollover st epoch) epoch nullifier

/-- Embedding of RateLimiter::get_stats (lines 383-385). -/
def get_stats (st : RateLimiter) : Nat × Nat × Nat :=
  (st.current_epoch, st.message_count, st.rate_limit_per_epoch)

/-- Run a sequence of check_and_update calls, returning the final limiter and
the per-call trace of (epoch argument, call accepted?). -/
def runCalls (st : RateLimiter) : List (Nat × Nat) → RateLimiter × List (Nat × Bool)
  | [] => (st, [])
  | (e, n) :: rest =>
    let r := check_and_update st e n
    let t := runCalls r.2 rest
    (t.1, (e, r.1.isOk) :: t.2)

/-- Number of accepted calls carrying epoch argument e in a trace. -/
def countAccepted (e : Nat) : List (Nat × Bool) → Nat
  | [] => 0
  | (ep, b) :: rest => (if ep = e ∧ b = true then 1 else 0) + countAccepted e rest

/-- Payload of the RelayEvent::RateLimitExceeded event (lines 96-100). -/
structure RateLimitExceeded where
  epoch : Nat
  attempts : Nat
  limit : Nat
deriving DecidableEq

/-- Embedding of the rate-limit block of relay_attestation (lines 573-586):
run check_and_update, and on failure emit RateLimitExceeded built from
get_stats of the already-mutated limiter. -/
def relayRateLimitCheck (limiter : RateLimiter) (rln_epoch nullifier : Nat) :
    RateLimiter × Option RateLimitExceeded :=
  match check_and_update limiter rln_epoch nullifier with
  | (Except.ok _, limiter2) => (limiter2, none)
  | (Except.error _, limiter2) =>
    ((limiter2, some ⟨(get_stats limiter2).1, (get_stats limiter2).2.1, (get_stats limiter2).2.2⟩))

/-! ## Relay messages and fanout (crates/friend-relay/src/lib.rs) -/

/-- Embedding of the RelayMessage struct (lines 19-31).  Timestamps are
nanosecond counts; attestation payloads are byte lists. -/
structure RelayMessage where
  message_id : String
  attestation_data : List Nat
  subnet_id : Nat
  timestamp : Nat
  origin_hint : Option String
deriving DecidableEq

/-- Embedding of the RlnProof struct (lines 34-44). -/
structure RlnProof where
  nullifier : Nat
  proof : List Nat
  epoch : Nat
  signal_hash : Nat
deriving DecidableEq

/-- Embedding of the ProvenMessage struct (lines 47-52). -/
structure ProvenMessage where
  message : RelayMessage
  rln_proof : RlnProof
  sender_id : String
deriving DecidableEq

/-- Embedding of the RelayMessage construction in relay_attestation
(lines 555-562): the message id is nanos, an underscore, then the subnet id,
and origin_hint is set to None. -/
def mkRelayMessage (now_nanos : Nat) (attestation_data : List Nat) (subnet_id : Nat) : RelayMessage :=
  { message_id := toString now_nanos ++ "_" ++ toString subnet_id
    attestation_data := attestation_data
    subnet_id := subnet_id
    timestamp := now_nanos
    origin_hint := none }

/-- Embedding of the ProvenMessage construction in relay_attestation
(lines 589-593): the sender id is the fixed anonymous literal. -/
def mkProvenMessage (relay_message : RelayMessage) (proof : RlnProof) : ProvenMessage :=
  { message := relay_message, rln_proof := proof, sender_id := "stealth_sidecar" }

/-- Embedding of the topic string built in the fanout of relay_attestation
(line 609). -/
def relayTopic (subnet_id : Nat) : String :=
  "/stealth-relay/" ++ toString subnet_id ++ "/ssz"

/-- Topic string claimed by the specification for the friend relay; stated
here only to be compared against relayTopic from the source. -/
def specClaimedRelayTopic (subnet_id : Nat) : String :=
  "/privacy-relay/" ++ toString subnet_id

/-- One Waku light_push call as issued by the fanout. -/
structure LightPush where
  topic : String
  payload : List Nat
deriving DecidableEq

/-- Embedding of the fanout of relay_attestation (lines 606-616): one
light_push per selected friend, every one on the same per-subnet topic with
the same proven-message bytes. -/
def relayFanout (friends : List String) (subnet_id : Nat) (proven_message_bytes : List Nat) :
    List LightPush :=
  friends.map (fun _ => { topic := relayTopic subnet_id, payload := proven_message_bytes })

/-! ## Rate limiter lemmas -/

theorem lookupBucket_append_of_none {m : NullMap} {e : Nat} (h : lookupBucket m e = none)
    (l : NullMap) : lookupBucket (m ++ l) e = lookupBucket l e := by
  induction m with
  | nil => simp
  | cons p rest ih =>
    obtain ⟨k, v⟩ := p
    by_cases hk : k = e
    · simp [lookupBucket, hk] at h
    · simp only [lookupBucket, hk, if_false, List.cons_append] at h ⊢
      exact ih h

theorem lookupBucket_retain_of_le {m : NullMap} {c e : Nat} (h : c ≤ e) :
    lookupBucket (retainBuckets m c) e = lookupBucket m e := by
  induction m with
  | nil => simp [retainBuckets, lookupBucket]
  | cons p rest ih =>
    obtain ⟨k, v⟩ := p
    by_cases hk : k = e
    · subst hk
      simp [retainBuckets, lookupBucket, h]
    · by_cases hc : c ≤ k
      · simp only [retainBuckets, List.filter_cons, decide_eq_true_eq, hc, if_true,
          lookupBucket, hk, if_false] at ih ⊢
        exact ih
      · simp only [retainBuckets, List.filter_cons, decide_eq_true_eq, hc, if_false,
          lookupBucket, hk, if_false] at ih ⊢
        exact ih

theorem lookupBucket_insertEmptyIfAbsent_self (m : NullMap) (e : Nat) :
    lookupBucket (insertEmptyIfAbsent m e) e = some ((lookupBucket m e).getD []) := by
  unfold insertEmptyIfAbsent
  cases h : lookupBucket m e with
  | some b => simp [h]
  | none => simp [lookupBucket_append_of_none h, lookupBucket]

theorem insertEmptyIfAbsent_of_found {m : NullMap} {e : Nat} {b : List Nat}
    (h : lookupBucket m e = some b) : insertEmptyIfAbsent m e = m := by
  simp [insertEmptyIfAbsent, h]

theorem insertEmptyIfAbsent_idem (m : NullMap) (e : Nat) :
    insertEmptyIfAbsent (insertEmptyIfAbsent m e) e = insertEmptyIfAbsent m e :=
  insertEmptyIfAbsent_of_found (lookupBucket_insertEmptyIfAbsent_self m e)

theorem lookupBucket_pushNullifier_self {m : NullMap} {e : Nat} {b : List Nat}
    (h : lookupBucket m e = some b) (n : Nat) :
    lookupBucket (pushNullifier m e n) e = some (b ++ [n]) := by
  induction m with
  | nil => simp [lookupBucket] at h
  | cons p rest ih =>
    obtain ⟨k, v⟩ := p
    by_cases hk : k = e
    · subst hk
      simp only [lookupBucket, if_pos rfl] at h
      obtain rfl := Option.some.inj h
      simp [pushNullifier, lookupBucket]
    · simp only [lookupBucket, hk, if_false] at h
      simp [pushNullifier, lookupBucket, hk, ih h]

theorem epochRollover_current_epoch (st : RateLimiter) (e : Nat) :
    (epochRollover st e).current_epoch = if st.current_epoch < e then e else st.current_epoch := by
  unfold epochRollover
  split <;> simp_all

theorem le_epochRollover_current_epoch (st : RateLimiter) (e : Nat) :
    e ≤ (epochRollover st e).current_epoch ∨ st.current_epoch < e := by
  rw [epochRollover_current_epoch]
  split <;> omega

theorem epochRollover_rate_limit (st : RateLimiter) (e : Nat) :
    (epochRollover st e).rate_limit_per_epoch = st.rate_limit_per_epoch := by
  unfold epochRollover
  split <;> rfl

theorem epochRollover_message_count (st : RateLimiter) (e : Nat) :
    (epochRollover st e).message_count = if st.current_epoch < e then 0 else st.message_count := by
  unfold epochRollover
  split <;> simp_all

theorem epochRollover_lookup (st : RateLimiter) (e : Nat) :
    lookupBucket (epochRollover st e).nullifiers_seen e = lookupBucket st.nullifiers_seen e := by
  unfold epochRollover
  split
  · exact lookupBucket_retain_of_le (by omega)
  · rfl

theorem epochRollover_of_ge {st : RateLimiter} {e : Nat} (h : e ≤ st.current_epoch) :
    epochRollover st e = st := by
  unfold epochRollover
  split
  · omega
  · rfl

theorem checkCore_current_epoch (st1 : RateLimiter) (e n : Nat) :
    (checkCore st1 e n).2.current_epoch = st1.current_epoch := by
  simp only [checkCore]
  split
  · rfl
  · split <;> rfl

theorem checkCore_rate_limit (st1 : RateLimiter) (e n : Nat) :
    (checkCore st1 e n).2.rate_limit_per_epoch = st1.rate_limit_per_epoch := by
  simp only [checkCore]
  split
  · rfl
  · split <;> rfl

theorem checkCore_err_state {st1 : RateLimiter} {e n : Nat}
    (h : Except.isOk (checkCore st1 e n).1 = false) :
    (checkCore st1 e n).2 =
      { st1 with nullifiers_seen := insertEmptyIfAbsent st1.nullifiers_seen e } := by
  by_cases h1 : n ∈ (lookupBucket (insertEmptyIfAbsent st1.nullifiers_seen e) e).getD []
  · simp [checkCore, h1]
  · by_cases h2 : st1.rate_limit_per_epoch ≤ st1.message_count
    · simp [checkCore, h1, h2]
    · exfalso
      simp [checkCore, h1, h2, Except.isOk, Except.toBool] at h

/-- Counter value right after the epoch-rollover phase of a call with epoch
argument ep. -/
def rolledCount (st : RateLimiter) (ep : Nat) : Nat :=
  if st.current_epoch < ep then 0 else st.message_count

theorem check_and_update_spec (st : RateLimiter) (ep n : Nat) (hge : st.current_epoch ≤ ep) :
    (check_and_update st ep n).2.current_epoch = ep ∧
    (check_and_update st ep n).2.rate_limit_per_epoch = st.rate_limit_per_epoch ∧
    ((Except.isOk (check_and_update st ep n).1 = true ∧
        (check_and_update st ep n).2.message_count = rolledCount st ep + 1 ∧
        rolledCount st ep < st.rate_limit_per_epoch) ∨
      (Except.isOk (check_and_update st ep n).1 = false ∧
        (check_and_update st ep n).2.message_count = rolledCount st ep)) := by
  have hcur : (epochRollover st ep).current_epoch = ep := by
    rw [epochRollover_current_epoch]
    split <;> omega
  have hcnt : (epochRollover st ep).message_count = rolledCount st ep :=
    epochRollover_message_count st ep
  have hlim : (epochRollover st ep).rate_limit_per_epoch = st.rate_limit_per_epoch :=
    epochRollover_rate_limit st ep
  unfold check_and_update
  refine ⟨by rw [checkCore_current_epoch, hcur], by rw [checkCore_rate_limit, hlim], ?_⟩
  by_cases h1 : n ∈ (lookupBucket (insertEmptyIfAbsent
      (epochRollover st ep).nullifiers_seen ep) ep).getD []
  · right
    constructor
    · simp [checkCore, h1, Except.isOk, Except.toBool]
    · simp only [checkCore]
      rw [if_pos h1]
      exact hcnt
  · by_cases h2 : (epochRollover st ep).rate_limit_per_epoch ≤
        (epochRollover st ep).message_count
    · right
      constructor
      · simp [checkCore, h1, h2, Except.isOk, Except.toBool]
      · simp only [checkCore]
        rw [if_neg h1, if_pos h2]
        exact hcnt
    · left
      refine ⟨by simp [checkCore, h1, h2, Except.isOk, Except.toBool], ?_, ?_⟩
      · simp only [checkCore]
        rw [if_neg h1, if_neg h2]
        show (epochRollover st ep).message_count + 1 = rolledCount st ep + 1
        rw [hcnt]
      · rw [hcnt, hlim] at h2
        omega

theorem countAccepted_eq_zero (e : Nat) :
    ∀ (calls : List (Nat × Nat)) (st : RateLimiter),
      (∀ c ∈ calls, c.1 ≠ e) → countAccepted e (runCalls st calls).2 = 0 := by
  intro calls
  induction calls with
  | nil => intro st _; simp [runCalls, countAccepted]
  | cons c rest ih =>
    obtain ⟨ep, n⟩ := c
    intro st h
    have hne : ep ≠ e := h (ep, n) (List.mem_cons_self _ _)
    simp only [runCalls, countAccepted, hne, false_and, if_false]
    have := ih (check_and_update st ep n).2 (fun c hc => h c (List.mem_cons_of_mem _ hc))
    omega

theorem countAccepted_runCalls_le (e : Nat) :
    ∀ (calls : List (Nat × Nat)) (st : RateLimiter),
      List.Pairwise (fun a b => a.1 ≤ b.1) calls →
      (∀ c ∈ calls, st.current_epoch ≤ c.1) →
      countAccepted e (runCalls st calls).2 ≤
        st.rate_limit_per_epoch - (if st.current_epoch = e then st.message_count else 0) := by
  intro calls
  induction calls with
  | nil => intro st _ _; simp [runCalls, countAccepted]
  | cons c rest ih =>
    obtain ⟨ep, n⟩ := c
    intro st hpw hge
    have hgec : st.current_epoch ≤ ep := hge (ep, n) (List.mem_cons_self _ _)
    obtain ⟨hcur, hlim, hcase⟩ := check_and_update_spec st ep n hgec
    have hpw2 := List.pairwise_cons.mp hpw
    have IH := ih (check_and_update st ep n).2 hpw2.2 (by
      intro c hc
      rw [hcur]
      exact hpw2.1 c hc)
    rw [hcur, hlim] at IH
    simp only [runCalls, countAccepted]
    by_cases hep : ep = e
    · subst hep
      have hroll : rolledCount st ep = if st.current_epoch = ep then st.message_count else 0 := by
        unfold rolledCount
        rcases Nat.lt_or_ge st.current_epoch ep with h | h
        · have hne : st.current_epoch ≠ ep := by omega
          simp [h, hne]
        · have hEq : st.current_epoch = ep := le_antisymm hgec h
          rw [hEq]
          simp [Nat.lt_irrefl]
      rcases hcase with ⟨hok, hcnt, hlt⟩ | ⟨hok, hcnt⟩
      · have hif : (if ep = ep ∧ Except.isOk (check_and_update st ep n).1 = true
            then 1 else 0) = 1 := by simp [hok]
        rw [hif]
        have hif2 : (if ep = ep then (check_and_update st ep n).2.message_count else 0) =
            rolledCount st ep + 1 := by simp [hcnt]
        rw [hif2] at IH
        rw [← hroll]
        omega
      · have hif : (if ep = ep ∧ Except.isOk (check_and_update st ep n).1 = true
            then 1 else 0) = 0 := by simp [hok]
        rw [hif]
        have hif2 : (if ep = ep then (check_and_update st ep n).2.message_count else 0) =
            rolledCount st ep := by simp [hcnt]
        rw [hif2] at IH
        rw [← hroll]
        omega
    · have hif : (if ep = e ∧ Except.isOk (check_and_update st ep n).1 = true
          then 1 else 0) = 0 := by simp [hep]
      rw [hif]
      by_cases hcur_e : st.current_epoch = e
      · have hzero : ∀ c ∈ rest, c.1 ≠ e := by
          intro c hc heq
          have h2 := hpw2.1 c hc
          omega
        rw [countAccepted_eq_zero e rest (check_and_update st ep n).2 hzero]
        simp
      · have hif2 : (if ep = e then (check_and_update st ep n).2.message_count else 0) = 0 := by
          simp [hep]
        rw [hif2] at IH
        have hif3 : (if st.current_epoch = e then st.message_count else 0) = 0 := by
          simp [hcur_e]
        rw [hif3]
        omega

/-- Fixed sequence of ten distinct-nullifier submissions at epoch 100. -/
def tenDistinctCalls : List (Nat × Nat) :=
  [(100, 1), (100, 2), (100, 3), (100, 4), (100, 5), (100, 6), (100, 7), (100, 8), (100, 9), (100, 10)]

/-- Claim C1 (amended): for every sequence of check_and_update calls whose
epoch arguments are nondecreasing, and for any epoch e, at most
rate_limit_per_epoch calls with epoch argument e return Ok (out-of-order
epoch sequences can exceed the per-epoch bound, see the counterexample);
concretely, with rate_limit_per_epoch = 10 and epoch fixed at 100, ten calls
with distinct nullifiers all succeed, the eleventh is rejected and the relay
emits RateLimitExceeded with epoch 100, attempts 10, limit 10, and a
subsequent call with epoch 101 succeeds. -/
theorem claim_C1_rate_limit :
    (∀ (L : Nat) (calls : List (Nat × Nat)) (e : Nat),
        List.Pairwise (fun a b => a.1 ≤ b.1) calls →
        countAccepted e (runCalls (RateLimiter.new L) calls).2 ≤ L) ∧
    (runCalls (RateLimiter.new 10) tenDistinctCalls).2 =
      [(100, true), (100, true), (100, true), (100, true), (100, true),
       (100, true), (100, true), (100, true), (100, true), (100, true)] ∧
    (relayRateLimitCheck (runCalls (RateLimiter.new 10) tenDistinctCalls).1 100 11).2 =
      some ⟨100, 10, 10⟩ ∧
    Except.isOk (check_and_update
      (relayRateLimitCheck (runCalls (RateLimiter.new 10) tenDistinctCalls).1 100 11).1
      101 12).1 = true := by
  refine ⟨?_, by decide, by decide, by decide⟩
  intro L calls e hpw
  have h := countAccepted_runCalls_le e calls (RateLimiter.new L) hpw
    (fun c _ => Nat.zero_le c.1)
  simp only [RateLimiter.new] at h
  simpa using h

/-- Witness for claim C1: the nondecreasing-epoch bound applied to a concrete
three-call sequence. -/
theorem claim_C1_witness :
    countAccepted 100 (runCalls (RateLimiter.new 3) [(100, 1), (100, 2), (101, 3)]).2 ≤ 3 :=
  claim_C1_rate_limit.1 3 [(100, 1), (100, 2), (101, 3)] 100 (by decide)

/-- Counterexample for claim C1 as stated: with rate limit 2, the call
sequence (5,1) (5,2) (6,3) (5,4) makes check_and_update accept three calls
with epoch argument 5, because the call with the higher epoch 6 resets
message_count and the later epoch-5 call is counted against the reset
counter. -/
theorem claim_C1_counterexample :
    ¬ (countAccepted 5 (runCalls (RateLimiter.new 2) [(5, 1), (5, 2), (6, 3), (5, 4)]).2 ≤
        (RateLimiter.new 2).rate_limit_per_epoch) := by
  decide

theorem checkCore_isOk_false_of_mem {st1 : RateLimiter} {e n : Nat}
    (h : n ∈ (lookupBucket (insertEmptyIfAbsent st1.nullifiers_seen e) e).getD []) :
    Except.isOk (checkCore st1 e n).1 = false := by
  simp [checkCore, h, Except.isOk, Except.toBool]

theorem checkCore_isOk_false_of_limit {st1 : RateLimiter} {e n : Nat}
    (h : st1.rate_limit_per_epoch ≤ st1.message_count) :
    Except.isOk (checkCore st1 e n).1 = false := by
  by_cases h1 : n ∈ (lookupBucket (insertEmptyIfAbsent st1.nullifiers_seen e) e).getD []
  · simp [checkCore, h1, Except.isOk, Except.toBool]
  · simp [checkCore, h1, h, Except.isOk, Except.toBool]

theorem checkCore_insertEmpty (st1 : RateLimiter) (e n2 : Nat) :
    checkCore { st1 with nullifiers_seen := insertEmptyIfAbsent st1.nullifiers_seen e } e n2 =
      checkCore st1 e n2 := by
  obtain ⟨L, cur, cnt, m⟩ := st1
  simp only [checkCore, insertEmptyIfAbsent_idem]

/-- Claim C5: calling check_and_update twice in a row with the same epoch and
the same nullifier always rejects the second call, whatever the first call
returned and whatever the counter state; and whenever a nullifier is already
recorded in the epoch's retained bucket, the call offering it again is
rejected. -/
theorem claim_C5_nullifier_replay :
    ∀ (st : RateLimiter) (e n : Nat),
      Except.isOk (check_and_update (check_and_update st e n).2 e n).1 = false ∧
      (n ∈ (lookupBucket st.nullifiers_seen e).getD [] →
        Except.isOk (check_and_update st e n).1 = false) := by
  intro st e n
  constructor
  · have hcur1 : e ≤ (epochRollover st e).current_epoch := by
      rw [epochRollover_current_epoch]
      split <;> omega
    have hcur2 : e ≤ (check_and_update st e n).2.current_epoch := by
      unfold check_and_update
      rw [checkCore_current_epoch]
      exact hcur1
    have hro2 : epochRollover (check_and_update st e n).2 e = (check_and_update st e n).2 :=
      epochRollover_of_ge hcur2
    show Except.isOk (checkCore (epochRollover (check_and_update st e n).2 e) e n).1 = false
    rw [hro2]
    by_cases h1 : n ∈ (lookupBucket (insertEmptyIfAbsent
        (epochRollover st e).nullifiers_seen e) e).getD []
    · have hstate : (check_and_update st e n).2 =
          { epochRollover st e with
            nullifiers_seen := insertEmptyIfAbsent (epochRollover st e).nullifiers_seen e } := by
        unfold check_and_update
        simp only [checkCore]
        rw [if_pos h1]
      rw [hstate]
      apply checkCore_isOk_false_of_mem
      show n ∈ (lookupBucket (insertEmptyIfAbsent
        (insertEmptyIfAbsent (epochRollover st e).nullifiers_seen e) e) e).getD []
      rw [insertEmptyIfAbsent_idem]
      exact h1
    · by_cases h2 : (epochRollover st e).rate_limit_per_epoch ≤
          (epochRollover st e).message_count
      · have hstate : (check_and_update st e n).2 =
            { epochRollover st e with
              nullifiers_seen := insertEmptyIfAbsent (epochRollover st e).nullifiers_seen e } := by
          unfold check_and_update
          simp only [checkCore]
          rw [if_neg h1, if_pos h2]
        rw [hstate]
        exact checkCore_isOk_false_of_limit h2
      · have hstate : (check_and_update st e n).2 =
            { epochRollover st e with
              message_count := (epochRollover st e).message_count + 1
              nullifiers_seen := pushNullifier
                (insertEmptyIfAbsent (epochRollover st e).nullifiers_seen e) e n } := by
          unfold check_and_update
          simp only [checkCore]
          rw [if_neg h1, if_neg h2]
        rw [hstate]
        apply checkCore_isOk_false_of_mem
        show n ∈ (lookupBucket (insertEmptyIfAbsent (pushNullifier
          (insertEmptyIfAbsent (epochRollover st e).nullifiers_seen e) e n) e) e).getD []
        have hsome := lookupBucket_insertEmptyIfAbsent_self
          (epochRollover st e).nullifiers_seen e
        have hpush := lookupBucket_pushNullifier_self hsome n
        rw [insertEmptyIfAbsent_of_found hpush, hpush]
        simp
  · intro hmem
    apply checkCore_isOk_false_of_mem
    show n ∈ (lookupBucket (insertEmptyIfAbsent
      (epochRollover st e).nullifiers_seen e) e).getD []
    rw [lookupBucket_insertEmptyIfAbsent_self, epochRollover_lookup]
    simpa using hmem

/-- Witness for claim C5 at a limiter whose epoch-100 bucket already holds
nullifier 7. -/
theorem claim_C5_witness :
    Except.isOk (check_and_update
      (check_and_update ⟨10, 100, 1, [(100, [7])]⟩ 100 7).2 100 7).1 = false ∧
    Except.isOk (check_and_update ⟨10, 100, 1, [(100, [7])]⟩ 100 7).1 = false :=
  ⟨(claim_C5_nullifier_replay ⟨10, 100, 1, [(100, [7])]⟩ 100 7).1,
   (claim_C5_nullifier_replay ⟨10, 100, 1, [(100, [7])]⟩ 100 7).2 (by decide)⟩

/-- Claim C10: when check_and_update rejects a submission, the message counter
is not incremented (it can only stay or be reset by the epoch rollover that
precedes the checks), the rejected nullifier is not recorded in the epoch's
bucket, and a subsequent call in the same epoch behaves exactly as if the
rejected call had never happened. -/
theorem claim_C10_rejection_no_side_effects :
    ∀ (st : RateLimiter) (e n : Nat),
      Except.isOk (check_and_update st e n).1 = false →
      (check_and_update st e n).2.message_count ≤ st.message_count ∧
      (n ∉ (lookupBucket st.nullifiers_seen e).getD [] →
        n ∉ (lookupBucket (check_and_update st e n).2.nullifiers_seen e).getD []) ∧
      (∀ n2 : Nat, check_and_update (check_and_update st e n).2 e n2 = check_and_update st e n2) := by
  intro st e n hErr
  have hstate : (check_and_update st e n).2 =
      { epochRollover st e with
        nullifiers_seen := insertEmptyIfAbsent (epochRollover st e).nullifiers_seen e } :=
    checkCore_err_state hErr
  refine ⟨?_, ?_, ?_⟩
  · rw [hstate]
    show (epochRollover st e).message_count ≤ st.message_count
    rw [epochRollover_message_count]
    split <;> omega
  · intro hnot
    rw [hstate]
    show n ∉ (lookupBucket (insertEmptyIfAbsent
      (epochRollover st e).nullifiers_seen e) e).getD []
    rw [lookupBucket_insertEmptyIfAbsent_self, epochRollover_lookup]
    simpa using hnot
  · intro n2
    rw [hstate]
    have hge : e ≤ (epochRollover st e).current_epoch := by
      rw [epochRollover_current_epoch]
      split <;> omega
    have hro : epochRollover
        { epochRollover st e with
          nullifiers_seen := insertEmptyIfAbsent (epochRollover st e).nullifiers_seen e } e =
        { epochRollover st e with
          nullifiers_seen := insertEmptyIfAbsent (epochRollover st e).nullifiers_seen e } :=
      epochRollover_of_ge hge
    show check_and_update _ e n2 = checkCore (epochRollover st e) e n2
    unfold check_and_update
    rw [hro]
    exact checkCore_insertEmpty (epochRollover st e) e n2

/-- Witness for claim C10 at a zero-limit limiter that rejects its first
submission. -/
theorem claim_C10_witness :
    (check_and_update (RateLimiter.new 0) 5 1).2.message_count ≤
      (RateLimiter.new 0).message_count ∧
    (1 : Nat) ∉ (lookupBucket (check_and_update (RateLimiter.new 0) 5 1).2.nullifiers_seen 5).getD [] ∧
    check_and_update (check_and_update (RateLimiter.new 0) 5 1).2 5 2 =
      check_and_update (RateLimiter.new 0) 5 2 := by
  have h := claim_C10_rejection_no_side_effects (RateLimiter.new 0) 5 1 (by decide)
  exact ⟨h.1, h.2.1 (by decide), h.2.2 2⟩

/-- Claim C2: every RelayMessage built by relay_attestation carries
origin_hint = None, so the ProvenMessage wrapped around it for egress does
too, for every payload and subnet input; the anonymous sender tag is the
fixed literal. -/
theorem claim_C2_origin_hint_none :
    ∀ (now_nanos : Nat) (attestation_data : List Nat) (subnet_id : Nat) (proof : RlnProof),
      (mkProvenMessage (mkRelayMessage now_nanos attestation_data subnet_id) proof).message.origin_hint
        = none ∧
      (mkProvenMessage (mkRelayMessage now_nanos attestation_data subnet_id) proof).sender_id
        = "stealth_sidecar" :=
  fun _ _ _ _ => ⟨rfl, rfl⟩

/-- Claim C9 (amended): the fanout publishes every proven message on the
topic slash stealth-relay slash subnet_id slash ssz (not the privacy-relay
topic the specification names), and it is a single topic shared by all
friends for a given subnet. -/
theorem claim_C9_single_topic :
    ∀ (friends : List String) (subnet_id : Nat) (bytes : List Nat) (p : LightPush),
      p ∈ relayFanout friends subnet_id bytes →
      p.topic = "/stealth-relay/" ++ toString subnet_id ++ "/ssz" ∧
      (∀ q ∈ relayFanout friends subnet_id bytes, q.topic = p.topic) := by
  intro friends subnet_id bytes p hp
  obtain ⟨f, _, rfl⟩ := List.mem_map.mp hp
  refine ⟨rfl, ?_⟩
  intro q hq
  obtain ⟨g, _, rfl⟩ := List.mem_map.mp hq
  rfl

/-- Witness for claim C9 at a concrete two-friend fanout. -/
theorem claim_C9_witness :
    LightPush.topic ⟨relayTopic 7, [1]⟩ = "/stealth-relay/" ++ toString 7 ++ "/ssz" ∧
    (∀ q ∈ relayFanout ["friendA", "friendB"] 7 [1], q.topic = LightPush.topic ⟨relayTopic 7, [1]⟩) :=
  claim_C9_single_topic ["friendA", "friendB"] 7 [1] ⟨relayTopic 7, [1]⟩ (by decide)

/-- Counterexample for claim C9 as stated: the topic built by
relay_attestation differs from the privacy-relay topic the specification
claims, already at subnet 0. -/
theorem claim_C9_counterexample :
    relayTopic 0 ≠ specClaimedRelayTopic 0 := by
  decide

/-! ## Subnet juggler (crates/subnet-juggler/src/lib.rs)

Subnet ids are Fin 64 (SubnetId::new refuses values above 63).  The three
HashSet fields of SubnetState become Finset (Fin 64).  The networking
provider's fallible subscribe and unsubscribe calls are modelled as
Except String Unit valued functions; a provider answering Except.ok for
every subnet plays the role of a fully available network.  The random
shuffle of the candidate list and the iteration order of HashSets are
nondeterministic in the source, so the embedded operations take the
post-shuffle list as a parameter (constrained to be a permutation of the
candidate list where a claim needs it) and enumerate sets in subnet-id
order. -/

/-- Embedding of EpochInfo (stealth-common lib.rs lines 26-32). -/
structure EpochInfo where
  epoch : Nat
  slot : Nat
  slots_per_epoch : Nat
  seconds_per_slot : Nat
deriving DecidableEq

/-- Embedding of EpochInfo::seconds_until_next_epoch (common lib.rs
lines 41-48). -/
def seconds_until_next_epoch (info : EpochInfo) : Nat :=
  (info.slots_per_epoch - info.slot % info.slots_per_epoch) * info.seconds_per_slot

/-- Embedding of the SubnetState struct (subnet-juggler lib.rs lines 45-53);
the two chrono timestamps become second counts. -/
structure SubnetState where
  current_epoch : Nat
  subscribed_subnets : Finset (Fin 64)
  mandatory_subnets : Finset (Fin 64)
  extra_subnets : Finset (Fin 64)
  last_reshuffle : Nat
  next_reshuffle : Nat
deriving DecidableEq

/-- Embedding of the SubnetEvent enum (lines 32-42). -/
inductive SubnetEvent where
  | SubnetsJoined : List (Fin 64) → SubnetEvent
  | SubnetsLeft : List (Fin 64) → SubnetEvent
  | EpochReshuffle : Nat → List (Fin 64) → SubnetEvent
  | Error : String → SubnetEvent
deriving DecidableEq

/-- Embedding of the subscribe and unsubscribe halves of the
NetworkingProvider trait (lines 56-69); the epoch and validator queries are
passed to the operations as explicit inputs instead. -/
structure NetworkingProvider where
  subscribe_to_subnet : Fin 64 → Except String Unit
  unsubscribe_from_subnet : Fin 64 → Except String Unit

/-- Provider on which every subscribe and unsubscribe call succeeds. -/
def okProvider : NetworkingProvider :=
  ⟨fun _ => Except.ok (), fun _ => Except.ok ()⟩

/-- Embedding of SubnetId::all_subnets (common lib.rs lines 68-70). -/
def all_subnets : List (Fin 64) := List.finRange 64

/-- Canonical enumeration of a subnet set in subnet-id order, standing in
for the arbitrary iteration order of the Rust HashSet. -/
def setToList (s : Finset (Fin 64)) : List (Fin 64) :=
  all_subnets.filter (fun x => decide (x ∈ s))

/-- Embedding of the candidate computation in reshuffle_extra_subnets
(lines 387-388): all subnets minus the mandatory ones, in source order,
before the random shuffle. -/
def candidateSubnets (mandatory : Finset (Fin 64)) : List (Fin 64) :=
  all_subnets.filter (fun s => decide (s ∉ mandatory))

/-- Embedding of the subscribe loops (lines 338-341 and 402-405): subscribe
each subnet in turn, inserting it into the subscribed set on success; the
question-mark operator aborts the surrounding function at the first failing
call, leaving the insertions already made in place. -/
def subscribeLoop (p : NetworkingProvider) (subscribed : Finset (Fin 64)) :
    List (Fin 64) → Finset (Fin 64) × Option String
  | [] => (subscribed, none)
  | s :: rest =>
    match p.subscribe_to_subnet s with
    | Except.ok _ => subscribeLoop p (insert s subscribed) rest
    | Except.error e => (subscribed, some e)

/-- Embedding of the unsubscribe loop of reshuffle_extra_subnets
(lines 376-380), with the same first-failure abort behaviour. -/
def unsubscribeLoop (p : NetworkingProvider) (subscribed : Finset (Fin 64)) :
    List (Fin 64) → Finset (Fin 64) × Option String
  | [] => (subscribed, none)
  | s :: rest =>
    match p.unsubscribe_from_subnet s with
    | Except.ok _ => unsubscribeLoop p (subscribed.erase s) rest
    | Except.error e => (subscribed, some e)

/-- Embedding of SubnetJuggler::reshuffle_extra_subnets (lines 372-421).
The shuffled parameter is the candidate list after the random shuffle; on
success the call returns the newly selected extra subnets, mirroring the
Ok(new_extra_subnets) of the source. -/
def reshuffle_extra_subnets (p : NetworkingProvider) (K : Nat) (st : SubnetState)
    (shuffled : List (Fin 64)) (now : Nat) :
    SubnetState × List SubnetEvent × Except String (List (Fin 64)) :=
  let old_extra_subnets := setToList st.extra_subnets
  match unsubscribeLoop p st.subscribed_subnets old_extra_subnets with
  | (sub1, some e) => ({ st with subscribed_subnets := sub1 }, [], Except.error e)
  | (sub1, none) =>
    let leftEvents := if old_extra_subnets.isEmpty then ([] : List SubnetEvent)
      else [SubnetEvent.SubnetsLeft old_extra_subnets]
    let new_extra_subnets := shuffled.take K
    match subscribeLoop p sub1 new_extra_subnets with
    | (sub2, some e) => ({ st with subscribed_subnets := sub2 }, leftEvents, Except.error e)
    | (sub2, none) =>
      let st2 := { st with
        subscribed_subnets := sub2
        extra_subnets := new_extra_subnets.toFinset
        last_reshuffle := now }
      let joinedEvents := if new_extra_subnets.isEmpty then ([] : List SubnetEvent)
        else [SubnetEvent.SubnetsJoined new_extra_subnets]
      (st2, leftEvents ++ joinedEvents, Except.ok new_extra_subnets)

/-- Embedding of the juggler state built by SubnetJuggler::new
(lines 250-265): epoch 0 and empty sets. -/
def newJugglerState (now : Nat) : SubnetState :=
  ⟨0, ∅, ∅, ∅, now, now⟩

/-- Embedding of SubnetJuggler::initialize (lines 320-347): store the epoch
info and the validator's mandatory subnets, subscribe to each mandatory
subnet, then run the initial reshuffle.  The epoch info and the mandatory
list are the provider responses, passed as inputs. -/
def initJuggler (p : NetworkingProvider) (K : Nat) (st : SubnetState) (info : EpochInfo)
    (mandatory : List (Fin 64)) (shuffled : List (Fin 64)) (now : Nat) :
    SubnetState × List SubnetEvent × Except String Unit :=
  let st1 := { st with
    current_epoch := info.epoch
    next_reshuffle := now + seconds_until_next_epoch info
    mandatory_subnets := mandatory.toFinset }
  match subscribeLoop p st1.subscribed_subnets (setToList st1.mandatory_subnets) with
  | (sub, some e) => ({ st1 with subscribed_subnets := sub }, [], Except.error e)
  | (sub, none) =>
    match reshuffle_extra_subnets p K { st1 with subscribed_subnets := sub } shuffled now with
    | (st3, evs, Except.ok _) => (st3, evs, Except.ok ())
    | (st3, evs, Except.error e) => (st3, evs, Except.error e)

/-- Embedding of SubnetJuggler::handle_epoch_boundary (lines 349-370): store
the provider's epoch info, reshuffle unconditionally, then emit
EpochReshuffle. -/
def handle_epoch_boundary (p : NetworkingProvider) (K : Nat) (st : SubnetState)
    (info : EpochInfo) (shuffled : List (Fin 64)) (now : Nat) :
    SubnetState × List SubnetEvent × Except String Unit :=
  let st1 := { st with
    current_epoch := info.epoch
    next_reshuffle := now + seconds_until_next_epoch info }
  match reshuffle_extra_subnets p K st1 shuffled now with
  | (st2, evs, Except.ok new_subnets) =>
    (st2, evs ++ [SubnetEvent.EpochReshuffle info.epoch new_subnets], Except.ok ())
  | (st2, evs, Except.error e) => (st2, evs, Except.error e)

/-- Embedding of the loop in the AddSubnets arm of handle_command
(lines 431-437): subnets already subscribed are skipped; new ones are
subscribed and inserted into both subscribed_subnets and extra_subnets; the
question-mark operator aborts at the first failing subscribe. -/
def addLoop (p : NetworkingProvider) (subscribed extra : Finset (Fin 64)) :
    List (Fin 64) → (Finset (Fin 64) × Finset (Fin 64)) × Option String
  | [] => ((subscribed, extra), none)
  | s :: rest =>
    if s ∈ subscribed then
      addLoop p subscribed extra rest
    else
      match p.subscribe_to_subnet s with
      | Except.ok _ => addLoop p (insert s subscribed) (insert s extra) rest
      | Except.error e => ((subscribed, extra), some e)

/-- Embedding of the loop in the RemoveSubnets arm of handle_command
(lines 442-448): only subnets currently in extra_subnets are unsubscribed
and removed from both sets. -/
def removeLoop (p : NetworkingProvider) (subscribed extra : Finset (Fin 64)) :
    List (Fin 64) → (Finset (Fin 64) × Finset (Fin 64)) × Option String
  | [] => ((subscribed, extra), none)
  | s :: rest =>
    if s ∈ extra then
      match p.unsubscribe_from_subnet s with
      | Except.ok _ => removeLoop p (subscribed.erase s) (extra.erase s) rest
      | Except.error e => ((subscribed, extra), some e)
    else
      removeLoop p subscribed extra rest

/-- Embedding of the AddSubnets arm of handle_command (lines 429-439),
including the SubnetsJoined event carrying the full input list, sent only
when the loop completes. -/
def addSubnetsCmd (p : NetworkingProvider) (st : SubnetState) (subnets : List (Fin 64)) :
    SubnetState × List SubnetEvent × Except String Unit :=
  match addLoop p st.subscribed_subnets st.extra_subnets subnets with
  | ((sub, ext), none) =>
    ({ st with subscribed_subnets := sub, extra_subnets := ext },
     [SubnetEvent.SubnetsJoined subnets], Except.ok ())
  | ((sub, ext), some e) =>
    ({ st with subscribed_subnets := sub, extra_subnets := ext }, [], Except.error e)

/-- Embedding of the RemoveSubnets arm of handle_command (lines 440-450). -/
def removeSubnetsCmd (p : NetworkingProvider) (st : SubnetState) (subnets : List (Fin 64)) :
    SubnetState × List SubnetEvent × Except String Unit :=
  match removeLoop p st.subscribed_subnets st.extra_subnets subnets with
  | ((sub, ext), none) =>
    ({ st with subscribed_subnets := sub, extra_subnets := ext },
     [SubnetEvent.SubnetsLeft subnets], Except.ok ())
  | ((sub, ext), some e) =>
    ({ st with subscribed_subnets := sub, extra_subnets := ext }, [], Except.error e)

/-- Embedding of the error surfacing in the run loop (lines 306-311): a
failed command or boundary handler has its error sent as a SubnetEvent.Error
after whatever events the handler already emitted. -/
def withErrorEvent {α : Type} (evs : List SubnetEvent) (r : Except String α) : List SubnetEvent :=
  match r with
  | Except.ok _ => evs
  | Except.error e => evs ++ [SubnetEvent.Error e]

/-- States reachable from a fresh juggler through initialize,
reshuffle_extra_subnets (the ForceReshuffle arm), handle_epoch_boundary, and
the AddSubnets (when allowAdd is true) and RemoveSubnets command arms, with
every provider call succeeding; the shuffled list of each reshuffle is
constrained to be a permutation of the candidate list, as produced by the
source's Fisher-Yates shuffle. -/
inductive ReachableState (K : Nat) (allowAdd : Bool) : SubnetState → Prop where
  | init (now0 : Nat) (info : EpochInfo) (mandatory : List (Fin 64))
      (shuffled : List (Fin 64)) (now : Nat)
      (hperm : shuffled.Perm (candidateSubnets mandatory.toFinset)) :
      ReachableState K allowAdd
        (initJuggler okProvider K (newJugglerState now0) info mandatory shuffled now).1
  | reshuffleStep (st : SubnetState) (shuffled : List (Fin 64)) (now : Nat)
      (h : ReachableState K allowAdd st)
      (hperm : shuffled.Perm (candidateSubnets st.mandatory_subnets)) :
      ReachableState K allowAdd (reshuffle_extra_subnets okProvider K st shuffled now).1
  | epochStep (st : SubnetState) (info : EpochInfo) (shuffled : List (Fin 64)) (now : Nat)
      (h : ReachableState K allowAdd st)
      (hperm : shuffled.Perm (candidateSubnets st.mandatory_subnets)) :
      ReachableState K allowAdd (handle_epoch_boundary okProvider K st info shuffled now).1
  | addStep (hAdd : allowAdd = true) (st : SubnetState) (subnets : List (Fin 64))
      (h : ReachableState K allowAdd st) :
      ReachableState K allowAdd (addSubnetsCmd okProvider st subnets).1
  | removeStep (st : SubnetState) (subnets : List (Fin 64))
      (h : ReachableState K allowAdd st) :
      ReachableState K allowAdd (removeSubnetsCmd okProvider st subnets).1

/-! ## Subnet juggler lemmas -/

theorem setToList_toFinset (s : Finset (Fin 64)) : (setToList s).toFinset = s := by
  ext x
  simp [setToList, all_subnets, List.mem_filter, List.mem_finRange]

theorem mem_setToList {s : Finset (Fin 64)} {x : Fin 64} : x ∈ setToList s ↔ x ∈ s := by
  simp [setToList, all_subnets, List.mem_filter, List.mem_finRange]

theorem setToList_ne_nil {s : Finset (Fin 64)} (h : s ≠ ∅) : setToList s ≠ [] := by
  intro hnil
  apply h
  ext x
  simp only [Finset.not_mem_empty, iff_false]
  intro hx
  have : x ∈ setToList s := mem_setToList.mpr hx
  simp [hnil] at this

theorem subscribeLoop_ok {p : NetworkingProvider} :
    ∀ (l : List (Fin 64)) (S : Finset (Fin 64)),
      (∀ x ∈ l, p.subscribe_to_subnet x = Except.ok ()) →
      subscribeLoop p S l = (S ∪ l.toFinset, none) := by
  intro l
  induction l with
  | nil => intro S _; simp [subscribeLoop]
  | cons s rest ih =>
    intro S h
    have hs := h s (List.mem_cons_self _ _)
    simp only [subscribeLoop, hs]
    rw [ih (insert s S) (fun x hx => h x (List.mem_cons_of_mem _ hx))]
    have : insert s S ∪ rest.toFinset = S ∪ (s :: rest).toFinset := by
      ext x
      simp only [Finset.mem_union, Finset.mem_insert, List.toFinset_cons, List.mem_toFinset]
      tauto
    rw [this]

theorem unsubscribeLoop_ok {p : NetworkingProvider} :
    ∀ (l : List (Fin 64)) (S : Finset (Fin 64)),
      (∀ x ∈ l, p.unsubscribe_from_subnet x = Except.ok ()) →
      unsubscribeLoop p S l = (S \ l.toFinset, none) := by
  intro l
  induction l with
  | nil => intro S _; simp [unsubscribeLoop]
  | cons s rest ih =>
    intro S h
    have hs := h s (List.mem_cons_self _ _)
    simp only [unsubscribeLoop, hs]
    rw [ih (S.erase s) (fun x hx => h x (List.mem_cons_of_mem _ hx))]
    have : S.erase s \ rest.toFinset = S \ (s :: rest).toFinset := by
      ext x
      simp only [Finset.mem_sdiff, Finset.mem_erase, List.toFinset_cons, Finset.mem_insert,
        List.mem_toFinset]
      tauto
    rw [this]

theorem subscribeLoop_okProvider (l : List (Fin 64)) (S : Finset (Fin 64)) :
    subscribeLoop okProvider S l = (S ∪ l.toFinset, none) :=
  subscribeLoop_ok l S (fun _ _ => rfl)

theorem unsubscribeLoop_okProvider (l : List (Fin 64)) (S : Finset (Fin 64)) :
    unsubscribeLoop okProvider S l = (S \ l.toFinset, none) :=
  unsubscribeLoop_ok l S (fun _ _ => rfl)

theorem subscribeLoop_fail {p : NetworkingProvider} {s : Fin 64} {msg : String}
    (hs : p.subscribe_to_subnet s = Except.error msg) :
    ∀ (l1 l2 : List (Fin 64)) (S : Finset (Fin 64)),
      (∀ x ∈ l1, p.subscribe_to_subnet x = Except.ok ()) →
      subscribeLoop p S (l1 ++ s :: l2) = (S ∪ l1.toFinset, some msg) := by
  intro l1
  induction l1 with
  | nil => intro l2 S _; simp [subscribeLoop, hs]
  | cons x rest ih =>
    intro l2 S h
    have hx := h x (List.mem_cons_self _ _)
    rw [List.cons_append]
    simp only [subscribeLoop, hx]
    rw [ih l2 (insert x S) (fun y hy => h y (List.mem_cons_of_mem _ hy))]
    have : insert x S ∪ rest.toFinset = S ∪ (x :: rest).toFinset := by
      ext z
      simp only [Finset.mem_union, Finset.mem_insert, List.toFinset_cons, List.mem_toFinset]
      tauto
    rw [this]

theorem reshuffle_ok_result (K : Nat) (st : SubnetState) (shuffled : List (Fin 64)) (now : Nat) :
    reshuffle_extra_subnets okProvider K st shuffled now =
      ({ st with
         subscribed_subnets :=
           (st.subscribed_subnets \ st.extra_subnets) ∪ (shuffled.take K).toFinset
         extra_subnets := (shuffled.take K).toFinset
         last_reshuffle := now },
       (if (setToList st.extra_subnets).isEmpty then []
         else [SubnetEvent.SubnetsLeft (setToList st.extra_subnets)]) ++
        (if (shuffled.take K).isEmpty then []
          else [SubnetEvent.SubnetsJoined (shuffled.take K)]),
       Except.ok (shuffled.take K)) := by
  simp only [reshuffle_extra_subnets, unsubscribeLoop_okProvider, subscribeLoop_okProvider,
    setToList_toFinset]

/-- Invariant of the juggler state: mandatory and extra subnets are disjoint
and together they are exactly the subscribed set. -/
def StateInv (st : SubnetState) : Prop :=
  st.mandatory_subnets ∩ st.extra_subnets = ∅ ∧
  st.subscribed_subnets = st.mandatory_subnets ∪ st.extra_subnets

theorem union_sdiff_of_disjoint {M E : Finset (Fin 64)} (h : M ∩ E = ∅) :
    (M ∪ E) \ E = M := by
  ext x
  simp only [Finset.mem_sdiff, Finset.mem_union]
  constructor
  · rintro ⟨h1 | h1, h2⟩
    · exact h1
    · exact absurd h1 h2
  · intro hx
    refine ⟨Or.inl hx, fun hE => ?_⟩
    have hmem : x ∈ M ∩ E := Finset.mem_inter.mpr ⟨hx, hE⟩
    simp [h] at hmem

theorem take_disjoint_mandatory {M : Finset (Fin 64)} {shuffled : List (Fin 64)}
    (hperm : shuffled.Perm (candidateSubnets M)) (K : Nat) :
    M ∩ (shuffled.take K).toFinset = ∅ := by
  ext x
  simp only [Finset.mem_inter, List.mem_toFinset, Finset.not_mem_empty, iff_false]
  rintro ⟨hM, hT⟩
  have hx : x ∈ shuffled := List.take_subset K shuffled hT
  have hc : x ∈ candidateSubnets M := hperm.mem_iff.mp hx
  simp [candidateSubnets, List.mem_filter] at hc
  exact hc.2 hM

theorem take_toFinset_card_le (shuffled : List (Fin 64)) (K : Nat) :
    (shuffled.take K).toFinset.card ≤ K := by
  have h1 := List.toFinset_card_le (shuffled.take K)
  have h2 : (shuffled.take K).length ≤ K := by
    rw [List.length_take]
    exact Nat.min_le_left _ _
  omega

theorem reshuffle_inv (K : Nat) (st : SubnetState) (shuffled : List (Fin 64)) (now : Nat)
    (hInv : StateInv st) (hperm : shuffled.Perm (candidateSubnets st.mandatory_subnets)) :
    StateInv (reshuffle_extra_subnets okProvider K st shuffled now).1 ∧
    (reshuffle_extra_subnets okProvider K st shuffled now).1.mandatory_subnets =
      st.mandatory_subnets ∧
    (reshuffle_extra_subnets okProvider K st shuffled now).1.extra_subnets.card ≤ K := by
  obtain ⟨hdisj, hsub⟩ := hInv
  rw [reshuffle_ok_result]
  refine ⟨⟨take_disjoint_mandatory hperm K, ?_⟩, rfl, take_toFinset_card_le shuffled K⟩
  show (st.subscribed_subnets \ st.extra_subnets) ∪ (shuffled.take K).toFinset =
    st.mandatory_subnets ∪ (shuffled.take K).toFinset
  rw [hsub, union_sdiff_of_disjoint hdisj]

theorem initJuggler_ok_state (K : Nat) (now0 : Nat) (info : EpochInfo)
    (mandatory shuffled : List (Fin 64)) (now : Nat) :
    (initJuggler okProvider K (newJugglerState now0) info mandatory shuffled now).1 =
      (reshuffle_extra_subnets okProvider K
        { newJugglerState now0 with
          current_epoch := info.epoch
          next_reshuffle := now + seconds_until_next_epoch info
          mandatory_subnets := mandatory.toFinset
          subscribed_subnets := mandatory.toFinset } shuffled now).1 := by
  simp only [initJuggler, subscribeLoop_okProvider, setToList_toFinset]
  rcases hres : reshuffle_extra_subnets okProvider K _ shuffled now with ⟨st3, evs, r⟩
  cases r with
  | ok v =>
    have : (newJugglerState now0).subscribed_subnets ∪ mandatory.toFinset = mandatory.toFinset := by
      show ∅ ∪ mandatory.toFinset = mandatory.toFinset
      exact Finset.empty_union _
    rw [this] at hres
    simp [hres]
  | error e =>
    have : (newJugglerState now0).subscribed_subnets ∪ mandatory.toFinset = mandatory.toFinset := by
      show ∅ ∪ mandatory.toFinset = mandatory.toFinset
      exact Finset.empty_union _
    rw [this] at hres
    simp [hres]

theorem handle_epoch_boundary_state (p : NetworkingProvider) (K : Nat) (st : SubnetState)
    (info : EpochInfo) (shuffled : List (Fin 64)) (now : Nat) :
    (handle_epoch_boundary p K st info shuffled now).1 =
      (reshuffle_extra_subnets p K
        { st with
          current_epoch := info.epoch
          next_reshuffle := now + seconds_until_next_epoch info } shuffled now).1 := by
  simp only [handle_epoch_boundary]
  rcases hres : reshuffle_extra_subnets p K _ shuffled now with ⟨st2, evs, r⟩
  cases r <;> simp

theorem addSubnetsCmd_state (p : NetworkingProvider) (st : SubnetState)
    (subnets : List (Fin 64)) :
    (addSubnetsCmd p st subnets).1 =
      { st with
        subscribed_subnets := (addLoop p st.subscribed_subnets st.extra_subnets subnets).1.1
        extra_subnets := (addLoop p st.subscribed_subnets st.extra_subnets subnets).1.2 } := by
  simp only [addSubnetsCmd]
  rcases h : addLoop p st.subscribed_subnets st.extra_subnets subnets with ⟨⟨sub, ext⟩, r⟩
  cases r <;> simp

theorem removeSubnetsCmd_state (p : NetworkingProvider) (st : SubnetState)
    (subnets : List (Fin 64)) :
    (removeSubnetsCmd p st subnets).1 =
      { st with
        subscribed_subnets := (removeLoop p st.subscribed_subnets st.extra_subnets subnets).1.1
        extra_subnets := (removeLoop p st.subscribed_subnets st.extra_subnets subnets).1.2 } := by
  simp only [removeSubnetsCmd]
  rcases h : removeLoop p st.subscribed_subnets st.extra_subnets subnets with ⟨⟨sub, ext⟩, r⟩
  cases r <;> simp

theorem addLoop_preserves (M : Finset (Fin 64)) :
    ∀ (l : List (Fin 64)) (S E : Finset (Fin 64)),
      S = M ∪ E → M ∩ E = ∅ →
      (addLoop okProvider S E l).1.1 = M ∪ (addLoop okProvider S E l).1.2 ∧
      M ∩ (addLoop okProvider S E l).1.2 = ∅ := by
  intro l
  induction l with
  | nil => intro S E h1 h2; exact ⟨h1, h2⟩
  | cons s rest ih =>
    intro S E h1 h2
    by_cases hs : s ∈ S
    · simp only [addLoop, hs, if_true]
      exact ih S E h1 h2
    · have hsM : s ∉ M := fun hM => hs (h1 ▸ Finset.mem_union_left E hM)
      simp only [addLoop, hs, if_false, okProvider]
      apply ih (insert s S) (insert s E)
      · rw [h1]
        ext x
        simp only [Finset.mem_insert, Finset.mem_union]
        tauto
      · ext x
        simp only [Finset.mem_inter, Finset.mem_insert, Finset.not_mem_empty, iff_false]
        rintro ⟨hxM, hx | hxE⟩
        · exact hsM (hx ▸ hxM)
        · have hmem : x ∈ M ∩ E := Finset.mem_inter.mpr ⟨hxM, hxE⟩
          simp [h2] at hmem

theorem removeLoop_preserves (M : Finset (Fin 64)) :
    ∀ (l : List (Fin 64)) (S E : Finset (Fin 64)),
      S = M ∪ E → M ∩ E = ∅ →
      (removeLoop okProvider S E l).1.1 = M ∪ (removeLoop okProvider S E l).1.2 ∧
      M ∩ (removeLoop okProvider S E l).1.2 = ∅ ∧
      (removeLoop okProvider S E l).1.2 ⊆ E := by
  intro l
  induction l with
  | nil => intro S E h1 h2; exact ⟨h1, h2, Finset.Subset.refl E⟩
  | cons s rest ih =>
    intro S E h1 h2
    by_cases hs : s ∈ E
    · have hsM : s ∉ M := by
        intro hM
        have hmem : s ∈ M ∩ E := Finset.mem_inter.mpr ⟨hM, hs⟩
        simp [h2] at hmem
      simp only [removeLoop, hs, if_true, okProvider]
      have hrec := ih (S.erase s) (E.erase s) (by
          rw [h1, Finset.erase_union_distrib, Finset.erase_eq_of_not_mem hsM]) (by
          ext x
          simp only [Finset.mem_inter, Finset.mem_erase, Finset.not_mem_empty, iff_false]
          rintro ⟨hxM, _, hxE⟩
          have hmem : x ∈ M ∩ E := Finset.mem_inter.mpr ⟨hxM, hxE⟩
          simp [h2] at hmem)
      exact ⟨hrec.1, hrec.2.1, hrec.2.2.trans (Finset.erase_subset _ _)⟩
    · simp only [removeLoop, hs, if_false]
      exact ih S E h1 h2

theorem reachable_inv {K : Nat} {allowAdd : Bool} {st : SubnetState}
    (h : ReachableState K allowAdd st) :
    StateInv st ∧ (allowAdd = false → st.extra_subnets.card ≤ K) := by
  induction h with
  | init now0 info mandatory shuffled now hperm =>
    rw [initJuggler_ok_state]
    have hInv : StateInv { newJugglerState now0 with
        current_epoch := info.epoch
        next_reshuffle := now + seconds_until_next_epoch info
        mandatory_subnets := mandatory.toFinset
        subscribed_subnets := mandatory.toFinset } := by
      constructor
      · show mandatory.toFinset ∩ ∅ = ∅
        exact Finset.inter_empty _
      · show mandatory.toFinset = mandatory.toFinset ∪ ∅
        exact (Finset.union_empty _).symm
    have hr := reshuffle_inv K _ shuffled now hInv hperm
    exact ⟨hr.1, fun _ => hr.2.2⟩
  | reshuffleStep st shuffled now h hperm ih =>
    have hr := reshuffle_inv K st shuffled now ih.1 hperm
    exact ⟨hr.1, fun _ => hr.2.2⟩
  | epochStep st info shuffled now h hperm ih =>
    rw [handle_epoch_boundary_state]
    have hInv1 : StateInv { st with
        current_epoch := info.epoch
        next_reshuffle := now + seconds_until_next_epoch info } := ih.1
    have hr := reshuffle_inv K _ shuffled now hInv1 hperm
    exact ⟨hr.1, fun _ => hr.2.2⟩
  | addStep hAdd st subnets h ih =>
    obtain ⟨⟨hdisj, hsub⟩, _⟩ := ih
    rw [addSubnetsCmd_state]
    have hp := addLoop_preserves st.mandatory_subnets subnets
      st.subscribed_subnets st.extra_subnets hsub hdisj
    refine ⟨⟨hp.2, hp.1⟩, ?_⟩
    intro hfalse
    rw [hAdd] at hfalse
    exact Bool.noConfusion hfalse
  | removeStep st subnets h ih =>
    obtain ⟨⟨hdisj, hsub⟩, hcard⟩ := ih
    rw [removeSubnetsCmd_state]
    have hp := removeLoop_preserves st.mandatory_subnets subnets
      st.subscribed_subnets st.extra_subnets hsub hdisj
    refine ⟨⟨hp.2.1, hp.1⟩, ?_⟩
    intro hfalse
    exact (Finset.card_le_card hp.2.2).trans (hcard hfalse)

/-- Epoch info used by the concrete runs: epoch 100, slot 3200, mainnet
constants. -/
def infoDemo : EpochInfo := ⟨100, 3200, 32, 12⟩

/-- Concrete juggler state: freshly initialized with K = 1, mandatory
subnets 0 and 1, and the identity shuffle, which selects subnet 2 as the
single extra subnet. -/
def demoInitState : SubnetState :=
  (initJuggler okProvider 1 (newJugglerState 0) infoDemo [0, 1]
    (candidateSubnets (([0, 1] : List (Fin 64)).toFinset)) 0).1

/-- Claim C3 (amended): in every reachable SubnetState the extra subnets
satisfy card extra ≤ 64 - card mandatory, and in every state reachable
without AddSubnets commands also card extra ≤ min K (64 - card mandatory);
AddSubnets itself enforces no bound against K, so the K part of the claimed
invariant fails once AddSubnets runs (see the counterexample). -/
theorem claim_C3_extra_bound :
    ∀ (K : Nat) (allowAdd : Bool) (st : SubnetState), ReachableState K allowAdd st →
      st.extra_subnets.card ≤ 64 - st.mandatory_subnets.card ∧
      (allowAdd = false →
        st.extra_subnets.card ≤ min K (64 - st.mandatory_subnets.card)) := by
  intro K allowAdd st h
  obtain ⟨⟨hdisj, hsub⟩, hcard⟩ := reachable_inv h
  have hbound : st.extra_subnets.card ≤ 64 - st.mandatory_subnets.card := by
    have hdisj2 : Disjoint st.mandatory_subnets st.extra_subnets :=
      Finset.disjoint_iff_inter_eq_empty.mpr hdisj
    have h1 : (st.mandatory_subnets ∪ st.extra_subnets).card =
        st.mandatory_subnets.card + st.extra_subnets.card :=
      Finset.card_union_of_disjoint hdisj2
    have h2 : (st.mandatory_subnets ∪ st.extra_subnets).card ≤ 64 := by
      have h3 := Finset.card_le_univ (st.mandatory_subnets ∪ st.extra_subnets)
      simpa using h3
    omega
  exact ⟨hbound, fun hf => le_min (hcard hf) hbound⟩

/-- Witness for claim C3 at the freshly initialized state with K = 1. -/
theorem claim_C3_witness :
    demoInitState.extra_subnets.card ≤ 64 - demoInitState.mandatory_subnets.card ∧
    demoInitState.extra_subnets.card ≤ min 1 (64 - demoInitState.mandatory_subnets.card) := by
  have h := claim_C3_extra_bound 1 false demoInitState
    (ReachableState.init 0 infoDemo [0, 1] _ 0 (List.Perm.refl _))
  exact ⟨h.1, h.2 rfl⟩

/-- Concrete state violating the K bound: initialize with K = 0 (no extras),
then AddSubnets([2]). -/
def c3State : SubnetState :=
  (addSubnetsCmd okProvider
    (initJuggler okProvider 0 (newJugglerState 0) infoDemo [0, 1]
      (candidateSubnets (([0, 1] : List (Fin 64)).toFinset)) 0).1 [2]).1

/-- Counterexample for claim C3 as stated: with K = 0 the reachable state
after AddSubnets([2]) holds one extra subnet, violating
card extra ≤ min K (64 - card mandatory) = 0. -/
theorem claim_C3_counterexample :
    ReachableState 0 true c3State ∧
    ¬ (c3State.extra_subnets.card ≤ min 0 (64 - c3State.mandatory_subnets.card)) := by
  constructor
  · exact ReachableState.addStep rfl _ [2]
      (ReachableState.init 0 infoDemo [0, 1] _ 0 (List.Perm.refl _))
  · decide

/-- Claim C4 (amended): every SubnetState reachable with every provider call
succeeding keeps mandatory and extra subnets disjoint with subscribed equal
to their union, and RemoveSubnets leaves the mandatory set untouched and
never unsubscribes a mandatory subnet.  The succeeding-provider
qualification is necessary: an unsubscribe failure mid-reshuffle aborts the
operation after removing only part of the old extras from subscribed, and
the juggler keeps running in a state with subscribed different from
mandatory union extra (see the counterexample). -/
theorem claim_C4_disjoint_union :
    ∀ (K : Nat) (allowAdd : Bool) (st : SubnetState), ReachableState K allowAdd st →
      st.mandatory_subnets ∩ st.extra_subnets = ∅ ∧
      st.subscribed_subnets = st.mandatory_subnets ∪ st.extra_subnets ∧
      (∀ subnets : List (Fin 64),
        (removeSubnetsCmd okProvider st subnets).1.mandatory_subnets = st.mandatory_subnets ∧
        st.mandatory_subnets ⊆ (removeSubnetsCmd okProvider st subnets).1.subscribed_subnets) := by
  intro K allowAdd st h
  obtain ⟨⟨hdisj, hsub⟩, _⟩ := reachable_inv h
  refine ⟨hdisj, hsub, ?_⟩
  intro subnets
  rw [removeSubnetsCmd_state]
  have hp := removeLoop_preserves st.mandatory_subnets subnets
    st.subscribed_subnets st.extra_subnets hsub hdisj
  refine ⟨rfl, ?_⟩
  show st.mandatory_subnets ⊆
    (removeLoop okProvider st.subscribed_subnets st.extra_subnets subnets).1.1
  rw [hp.1]
  exact Finset.subset_union_left

/-- Witness for claim C4 at the freshly initialized state. -/
theorem claim_C4_witness :
    demoInitState.mandatory_subnets ∩ demoInitState.extra_subnets = ∅ ∧
    demoInitState.subscribed_subnets =
      demoInitState.mandatory_subnets ∪ demoInitState.extra_subnets ∧
    (removeSubnetsCmd okProvider demoInitState [2]).1.mandatory_subnets =
      demoInitState.mandatory_subnets ∧
    demoInitState.mandatory_subnets ⊆
      (removeSubnetsCmd okProvider demoInitState [2]).1.subscribed_subnets := by
  have h := claim_C4_disjoint_union 1 true demoInitState
    (ReachableState.init 0 infoDemo [0, 1] _ 0 (List.Perm.refl _))
  exact ⟨h.1, h.2.1, (h.2.2 [2]).1, (h.2.2 [2]).2⟩

/-- States reachable from a fresh juggler through the same operations as
ReachableState, but with an arbitrary provider chosen at every step, so that
runs in which some subscribe or unsubscribe calls fail (and the operation
aborts partway, as the source's question-mark operator does) are included;
the run loop of the source catches such errors and keeps running on the
partially mutated state. -/
inductive ReachableAnyProvider (K : Nat) : SubnetState → Prop where
  | init (p : NetworkingProvider) (now0 : Nat) (info : EpochInfo)
      (mandatory : List (Fin 64)) (shuffled : List (Fin 64)) (now : Nat)
      (hperm : shuffled.Perm (candidateSubnets mandatory.toFinset)) :
      ReachableAnyProvider K
        (initJuggler p K (newJugglerState now0) info mandatory shuffled now).1
  | reshuffleStep (p : NetworkingProvider) (st : SubnetState)
      (shuffled : List (Fin 64)) (now : Nat)
      (h : ReachableAnyProvider K st)
      (hperm : shuffled.Perm (candidateSubnets st.mandatory_subnets)) :
      ReachableAnyProvider K (reshuffle_extra_subnets p K st shuffled now).1
  | epochStep (p : NetworkingProvider) (st : SubnetState) (info : EpochInfo)
      (shuffled : List (Fin 64)) (now : Nat)
      (h : ReachableAnyProvider K st)
      (hperm : shuffled.Perm (candidateSubnets st.mandatory_subnets)) :
      ReachableAnyProvider K (handle_epoch_boundary p K st info shuffled now).1
  | addStep (p : NetworkingProvider) (st : SubnetState) (subnets : List (Fin 64))
      (h : ReachableAnyProvider K st) :
      ReachableAnyProvider K (addSubnetsCmd p st subnets).1
  | removeStep (p : NetworkingProvider) (st : SubnetState) (subnets : List (Fin 64))
      (h : ReachableAnyProvider K st) :
      ReachableAnyProvider K (removeSubnetsCmd p st subnets).1

/-- Provider whose unsubscribe call fails exactly on subnet 3. -/
def failUnsubProvider : NetworkingProvider :=
  ⟨fun _ => Except.ok (),
   fun x => if x = 3 then Except.error "unsubscribe failed" else Except.ok ()⟩

/-- Healthy state for the C4 counterexample: freshly initialized with K = 2,
mandatory subnets 0 and 1, extras 2 and 3, everything subscribed. -/
def c4BaseState : SubnetState :=
  (initJuggler okProvider 2 (newJugglerState 0) infoDemo [0, 1]
    (candidateSubnets (([0, 1] : List (Fin 64)).toFinset)) 0).1

/-- State after a reshuffle on c4BaseState aborts: the unsubscribe loop
removes extra subnet 2 from subscribed_subnets, then fails on subnet 3 and
the question-mark operator aborts before extra_subnets is updated. -/
def c4FailState : SubnetState :=
  (reshuffle_extra_subnets failUnsubProvider 2 c4BaseState
    (candidateSubnets c4BaseState.mandatory_subnets) 0).1

/-- Counterexample for claim C4 as stated: through initialize followed by a
reshuffle whose unsubscribe call on subnet 3 fails, the juggler reaches a
state in which subscribed_subnets is no longer the union of
mandatory_subnets and extra_subnets (subnet 2 was unsubscribed before the
abort but remains in extra_subnets). -/
theorem claim_C4_counterexample :
    ReachableAnyProvider 2 c4FailState ∧
    c4FailState.subscribed_subnets ≠
      c4FailState.mandatory_subnets ∪ c4FailState.extra_subnets := by
  constructor
  · exact ReachableAnyProvider.reshuffleStep failUnsubProvider c4BaseState
      (candidateSubnets c4BaseState.mandatory_subnets) 0
      (ReachableAnyProvider.init okProvider 0 infoDemo [0, 1] _ 0 (List.Perm.refl _))
      (List.Perm.refl _)
  · decide

/-- Claim C8 (amended): for every reachable state and every subnet s that is
not currently an extra subnet, AddSubnets([s]) followed by RemoveSubnets([s])
restores subscribed, mandatory and extra subnets exactly; when s already is
an extra subnet, the add is skipped as already-subscribed but the remove
still deletes it, so the pair is not a no-op (see the counterexample). -/
theorem claim_C8_add_remove :
    ∀ (K : Nat) (allowAdd : Bool) (st : SubnetState) (s : Fin 64),
      ReachableState K allowAdd st → s ∉ st.extra_subnets →
      (removeSubnetsCmd okProvider (addSubnetsCmd okProvider st [s]).1 [s]).1.subscribed_subnets =
        st.subscribed_subnets ∧
      (removeSubnetsCmd okProvider (addSubnetsCmd okProvider st [s]).1 [s]).1.mandatory_subnets =
        st.mandatory_subnets ∧
      (removeSubnetsCmd okProvider (addSubnetsCmd okProvider st [s]).1 [s]).1.extra_subnets =
        st.extra_subnets := by
  intro K allowAdd st s h hs
  obtain ⟨⟨hdisj, hsub⟩, _⟩ := reachable_inv h
  by_cases hmem : s ∈ st.subscribed_subnets
  · refine ⟨?_, ?_, ?_⟩ <;>
      simp [addSubnetsCmd, removeSubnetsCmd, addLoop, removeLoop, hmem, hs]
  · have hsE : s ∉ st.extra_subnets := hs
    refine ⟨?_, ?_, ?_⟩ <;>
      simp [addSubnetsCmd, removeSubnetsCmd, addLoop, removeLoop, hmem, okProvider,
        Finset.mem_insert_self, Finset.erase_insert, hsE,
        fun hx => hmem hx]
  
/-- Witness for claim C8: the add-remove pair at subnet 5, not an extra of
the freshly initialized state. -/
theorem claim_C8_witness :
    (removeSubnetsCmd okProvider
      (addSubnetsCmd okProvider demoInitState [5]).1 [5]).1.subscribed_subnets =
      demoInitState.subscribed_subnets ∧
    (removeSubnetsCmd okProvider
      (addSubnetsCmd okProvider demoInitState [5]).1 [5]).1.mandatory_subnets =
      demoInitState.mandatory_subnets ∧
    (removeSubnetsCmd okProvider
      (addSubnetsCmd okProvider demoInitState [5]).1 [5]).1.extra_subnets =
      demoInitState.extra_subnets :=
  claim_C8_add_remove 1 true demoInitState 5
    (ReachableState.init 0 infoDemo [0, 1] _ 0 (List.Perm.refl _)) (by decide)

/-- Counterexample for claim C8 as stated: subnet 2 is an extra subnet of the
reachable freshly initialized state; AddSubnets([2]) is a no-op because 2 is
already subscribed, but RemoveSubnets([2]) deletes it, so the pair changes
the state. -/
theorem claim_C8_counterexample :
    ReachableState 1 true demoInitState ∧
    (2 : Fin 64) ∈ demoInitState.extra_subnets ∧
    (removeSubnetsCmd okProvider
      (addSubnetsCmd okProvider demoInitState [2]).1 [2]).1.extra_subnets ≠
      demoInitState.extra_subnets := by
  refine ⟨ReachableState.init 0 infoDemo [0, 1] _ 0 (List.Perm.refl _), by decide, by decide⟩

/-- Claim C7 (amended): on an epoch tick, even when the provider reports the
same epoch as the one already stored, handle_epoch_boundary performs the full
reshuffle: the extra set is re-drawn from the shuffled candidates, and when
the old extra set is nonempty its unsubscription is announced with a
SubnetsLeft event; nothing in the handler compares the reported epoch with
the stored one. -/
theorem claim_C7_reshuffle_not_skipped :
    ∀ (K : Nat) (st : SubnetState) (info : EpochInfo) (shuffled : List (Fin 64)) (now : Nat),
      info.epoch = st.current_epoch →
      (handle_epoch_boundary okProvider K st info shuffled now).1.extra_subnets =
        (shuffled.take K).toFinset ∧
      (st.extra_subnets ≠ ∅ →
        SubnetEvent.SubnetsLeft (setToList st.extra_subnets) ∈
          (handle_epoch_boundary okProvider K st info shuffled now).2.1) := by
  intro K st info shuffled now hsame
  constructor
  · rw [handle_epoch_boundary_state, reshuffle_ok_result]
  · intro hne
    have hres := reshuffle_ok_result K
      { st with
        current_epoch := info.epoch
        next_reshuffle := now + seconds_until_next_epoch info } shuffled now
    simp only [handle_epoch_boundary, hres]
    have hnil : ¬ (setToList st.extra_subnets).isEmpty = true := by
      intro hx
      exact setToList_ne_nil hne (List.isEmpty_iff.mp hx)
    simp [hnil]

/-- Witness for claim C7: an epoch tick on the freshly initialized state
whose stored epoch already equals the reported epoch 100. -/
theorem claim_C7_witness :
    (handle_epoch_boundary okProvider 1 demoInitState infoDemo
      (candidateSubnets demoInitState.mandatory_subnets) 0).1.extra_subnets =
      ((candidateSubnets demoInitState.mandatory_subnets).take 1).toFinset ∧
    SubnetEvent.SubnetsLeft (setToList demoInitState.extra_subnets) ∈
      (handle_epoch_boundary okProvider 1 demoInitState infoDemo
        (candidateSubnets demoInitState.mandatory_subnets) 0).2.1 := by
  have h := claim_C7_reshuffle_not_skipped 1 demoInitState infoDemo
    (candidateSubnets demoInitState.mandatory_subnets) 0 (by decide)
  exact ⟨h.1, h.2 (by decide)⟩

/-- State for the C7 counterexample: epoch 100 stored, mandatory 0 and 1,
extra subnet 2 subscribed. -/
def c7State : SubnetState := ⟨100, {0, 1, 2}, {0, 1}, {2}, 0, 0⟩

/-- Shuffle outcome for the C7 counterexample: subnet 3 drawn first. -/
def c7Shuffled : List (Fin 64) := 3 :: (candidateSubnets {0, 1}).erase 3

/-- Counterexample for claim C7 as stated: the provider reports epoch 100,
equal to the stored epoch, yet the tick still changes extra_subnets and
emits SubnetsLeft for the old extra subnet 2 (the shuffled list being a
permutation of the candidates, as the source's shuffle produces). -/
theorem claim_C7_counterexample :
    infoDemo.epoch = c7State.current_epoch ∧
    (c7Shuffled : Multiset (Fin 64)) =
      (candidateSubnets c7State.mandatory_subnets : Multiset (Fin 64)) ∧
    (handle_epoch_boundary okProvider 1 c7State infoDemo c7Shuffled 0).1.extra_subnets ≠
      c7State.extra_subnets ∧
    SubnetEvent.SubnetsLeft [2] ∈
      (handle_epoch_boundary okProvider 1 c7State infoDemo c7Shuffled 0).2.1 := by
  refine ⟨rfl, by decide, by decide, by decide⟩

/-- Claim C6 (amended): when a subscribe call fails during the reshuffle's
subscribe phase, the question-mark operator aborts the reshuffle at that
point: the remaining selected subnets are not subscribed, extra_subnets
keeps its old value, no SubnetsJoined event is emitted, the error propagates
to the run loop which surfaces it as a SubnetEvent.Error, and the
subscriptions already made before the failure are kept (no rollback). -/
theorem claim_C6_subscribe_failure_aborts :
    ∀ (p : NetworkingProvider) (K : Nat) (st : SubnetState) (shuffled : List (Fin 64))
      (now : Nat) (l1 l2 : List (Fin 64)) (s : Fin 64) (msg : String),
      (∀ x, p.unsubscribe_from_subnet x = Except.ok ()) →
      shuffled.take K = l1 ++ s :: l2 →
      (∀ x ∈ l1, p.subscribe_to_subnet x = Except.ok ()) →
      p.subscribe_to_subnet s = Except.error msg →
      (reshuffle_extra_subnets p K st shuffled now).1.extra_subnets = st.extra_subnets ∧
      (reshuffle_extra_subnets p K st shuffled now).1.subscribed_subnets =
        (st.subscribed_subnets \ st.extra_subnets) ∪ l1.toFinset ∧
      (reshuffle_extra_subnets p K st shuffled now).2.2 = Except.error msg ∧
      (∀ l : List (Fin 64),
        SubnetEvent.SubnetsJoined l ∉ (reshuffle_extra_subnets p K st shuffled now).2.1) ∧
      withErrorEvent (reshuffle_extra_subnets p K st shuffled now).2.1
          (reshuffle_extra_subnets p K st shuffled now).2.2 =
        (reshuffle_extra_subnets p K st shuffled now).2.1 ++ [SubnetEvent.Error msg] := by
  intro p K st shuffled now l1 l2 s msg hunsub htake hl1 hs
  have hustep : unsubscribeLoop p st.subscribed_subnets (setToList st.extra_subnets) =
      (st.subscribed_subnets \ st.extra_subnets, none) := by
    rw [unsubscribeLoop_ok _ _ (fun x _ => hunsub x), setToList_toFinset]
  have hsstep := subscribeLoop_fail hs l1 l2 (st.subscribed_subnets \ st.extra_subnets) hl1
  have hres : reshuffle_extra_subnets p K st shuffled now =
      ({ st with
         subscribed_subnets := (st.subscribed_subnets \ st.extra_subnets) ∪ l1.toFinset },
       (if (setToList st.extra_subnets).isEmpty then []
         else [SubnetEvent.SubnetsLeft (setToList st.extra_subnets)]),
       Except.error msg) := by
    simp only [reshuffle_extra_subnets, hustep, htake, hsstep]
  rw [hres]
  refine ⟨rfl, rfl, rfl, ?_, rfl⟩
  intro l
  by_cases hempty : (setToList st.extra_subnets).isEmpty
  · simp [hempty]
  · simp [hempty]

/-- Provider whose subscribe call fails exactly on subnet 3. -/
def failProvider : NetworkingProvider :=
  ⟨fun x => if x = 3 then Except.error "subscribe failed" else Except.ok (),
   fun _ => Except.ok ()⟩

/-- State for the C6 runs: mandatory 0 and 1 subscribed, no extras yet. -/
def c6State : SubnetState := ⟨100, {0, 1}, {0, 1}, ∅, 0, 0⟩

/-- Witness for claim C6: with K = 3 the selection is 2, 3, 4; subnet 2
succeeds, subnet 3 fails, and the reshuffle aborts with extras unchanged,
subnet 2 kept, the error returned and surfaced as an Error event. -/
theorem claim_C6_witness :
    (reshuffle_extra_subnets failProvider 3 c6State
      (candidateSubnets {0, 1}) 0).1.extra_subnets = c6State.extra_subnets ∧
    (reshuffle_extra_subnets failProvider 3 c6State
      (candidateSubnets {0, 1}) 0).1.subscribed_subnets =
      (c6State.subscribed_subnets \ c6State.extra_subnets) ∪
        ([2] : List (Fin 64)).toFinset ∧
    (reshuffle_extra_subnets failProvider 3 c6State
      (candidateSubnets {0, 1}) 0).2.2 = Except.error "subscribe failed" ∧
    (∀ l : List (Fin 64), SubnetEvent.SubnetsJoined l ∉
      (reshuffle_extra_subnets failProvider 3 c6State (candidateSubnets {0, 1}) 0).2.1) ∧
    withErrorEvent
        (reshuffle_extra_subnets failProvider 3 c6State (candidateSubnets {0, 1}) 0).2.1
        (reshuffle_extra_subnets failProvider 3 c6State (candidateSubnets {0, 1}) 0).2.2 =
      (reshuffle_extra_subnets failProvider 3 c6State (candidateSubnets {0, 1}) 0).2.1 ++
        [SubnetEvent.Error "subscribe failed"] :=
  claim_C6_subscribe_failure_aborts failProvider 3 c6State (candidateSubnets {0, 1}) 0
    [2] [4] 3 "subscribe failed" (fun _ => rfl) (by decide) (by decide) (by decide)

/-- Counterexample for claim C6 as stated: subnet 4 is among the selected
extras and its subscribe call would succeed, yet after subnet 3 fails the
juggler does not continue with it: 4 is never subscribed and the reshuffle
returns the error instead; subnet 2, subscribed before the failure, is kept. -/
theorem claim_C6_counterexample :
    (candidateSubnets c6State.mandatory_subnets).take 3 = [2, 3, 4] ∧
    failProvider.subscribe_to_subnet 4 = Except.ok () ∧
    (reshuffle_extra_subnets failProvider 3 c6State
      (candidateSubnets c6State.mandatory_subnets) 0).2.2 =
      Except.error "subscribe failed" ∧
    (4 : Fin 64) ∉ (reshuffle_extra_subnets failProvider 3 c6State
      (candidateSubnets c6State.mandatory_subnets) 0).1.subscribed_subnets ∧
    (2 : Fin 64) ∈ (reshuffle_extra_subnets failProvider 3 c6State
      (candidateSubnets c6State.mandatory_subnets) 0).1.subscribed_subnets := by
  refine ⟨by decide, by decide, by decide, by decide, by decide⟩
